import Mathlib

/-!
Verification of the dispatch core of mediatr_py (src/mediatr/mediator.py).

Modelling conventions for the shallow embedding:

* Python classes are identified by numeric ids.  A registry key (a key of the
  module-level dicts) is either a class, the wildcard `typing.Any`, or a
  non-class annotation such as a string forward reference (`Key.strK`).
* Python dicts preserve insertion order, so the three module-level tables are
  association lists; `dictSet` is `d[k] = v` (update in place, or append for a
  fresh key) and `lookupKey` is `d.get(k)`.
* Registered callables are identified by numeric ids; a `World` assigns each
  id its semantics.  The semantics of a callable is a state transformer over a
  trace state `τ`: this is exactly how the behaviour of Python test doubles is
  observed (they append to a shared list when invoked).
* A value produced by a step is either a plain value or an
  awaitable/coroutine (`AVal`): calling an `async def` function creates a
  coroutine without running its body, and `await` runs it one level.
  `return_await` is `__return_await__` (`await result` if awaitable else
  `result`).
* Exceptions raised by the dispatch machinery itself are the `Err` type:
  `RequestNoneError` and `HandlerNotFoundError` come from the injectable
  validator collaborator (module `mediatr.exceptions`, whose source is not
  part of the dispatch core; its effect is modelled from the spec: it rejects
  an absent request and a missing handler); `typeError` is the `TypeError`
  that `issubclass(r_class, key)` raises when `key` is not a class.
* `extract_request_type` reads the declared annotation of the first
  request-carrying parameter via `inspect`; runtime reflection is not
  representable, so the registration functions take the extracted annotation
  (`Key`) as an argument alongside the callable id.
-/

namespace MediatrPy

/-- A key of one of the three registry dicts: a class (by id), the wildcard
`typing.Any`, or a non-class annotation such as a string forward reference. -/
inductive Key : Type where
  | cls : Nat → Key
  | anyK : Key
  | strK : String → Key
deriving DecidableEq

/-- Key.isStr is true for the non-class (string annotation) keys, the ones on
which `issubclass` raises `TypeError`. -/
def Key.isStr : Key → Bool
  | .strK _ => true
  | _ => false

/-- A Python object as the dispatcher sees it: its runtime class and its
truthiness (`bool(obj)`), which the `request or self` merge consults. -/
structure Obj : Type where
  cls : Nat
  truthy : Bool
deriving DecidableEq

/-- Errors raised by the dispatch machinery: `RequestNoneError`,
`HandlerNotFoundError` (both from the validator collaborator) and the
`TypeError` of an `issubclass` call on a non-class key. -/
inductive Err : Type where
  | requestNone
  | handlerNotFound
  | typeError
deriving DecidableEq

/-- A state transformer over the trace state `τ`: the effect of calling a
plain (synchronous) Python function. -/
abbrev StM (τ β : Type) : Type := τ → β × τ

/-- A Python value that is either a plain value or an awaitable: calling an
`async def` function yields `co m` (the body `m` has not run); `await`
runs the body once. -/
inductive AVal (τ α : Type) : Type where
  | v : α → AVal τ α
  | co : (τ → AVal τ α × τ) → AVal τ α

/-- Model of `__return_await__`: `await result if inspect.isawaitable(result)
else result`.  Awaiting a coroutine runs its body once; the body's return
value is not awaited again. -/
def return_await {τ α : Type} : AVal τ α → StM τ (AVal τ α)
  | .v a => fun s => (.v a, s)
  | .co m => m

/-- The semantics of a behavior callable: it receives the request (the raw
`request` parameter of `send`/`send_async`, which may be `None`) and a
zero-argument continuation, and produces a value-or-awaitable.  An
`async def` behavior is one that immediately returns a coroutine (`.co`)
without touching the state. -/
abbrev BehF (τ α : Type) : Type :=
  Option Obj → (Unit → StM τ (AVal τ α)) → StM τ (AVal τ α)

/-- A registered target: a plain function (`inspect.isfunction`), or a class
reference whose `handler_class_manager`-constructed instance exposes the
semantics as its `handle` method (default manager: parameterless
construction). -/
inductive Target (F : Type) : Type where
  | func : F → Target F
  | clsT : F → Target F

/-- Model of `Mediator.__get_function` (and of the handler resolution inside
`__before_send`): a plain function is used as is; a class reference is
instantiated by the class manager and its `handle` method is used. -/
def get_function {F : Type} : Target F → F
  | .func f => f
  | .clsT f => f

/-- The environment assigning semantics to callable ids: the `issubclass`
relation between class ids, `cls.__name__`, and the semantics of each
registered handler, behavior and notification callable. -/
structure World (τ α : Type) : Type where
  isSub : Nat → Nat → Bool
  clsName : Nat → String
  handlerSem : Nat → Target (Option Obj → StM τ (AVal τ α))
  behSem : Nat → Target (BehF τ α)
  notifSem : Nat → Target (Option Obj → StM τ (AVal τ α))

/-- The three module-level registry dicts (`__handlers__`, `__behaviors__`,
`__notifications__`) as insertion-ordered association lists. -/
structure Registry : Type where
  handlers : List (Key × Nat)
  behaviors : List (Key × List Nat)
  notifications : List (Key × List Nat)
deriving DecidableEq

/-- Model of `dict.get(k)`: the value at `k`, if present. -/
def lookupKey {β : Type} : List (Key × β) → Key → Option β
  | [], _ => none
  | (k1, v) :: t, k => if k1 = k then some v else lookupKey t k

/-- Model of `d[k] = v`: replace the value at `k`, keeping its position, or
append a fresh key at the end (dict insertion order). -/
def dictSet {β : Type} : List (Key × β) → Key → β → List (Key × β)
  | [], k, v => [(k, v)]
  | (k1, v1) :: t, k, v =>
      if k1 = k then (k, v) :: t else (k1, v1) :: dictSet t k v

/-- The per-key test of `find_behaviors`/`find_notifications`:
`key == r_class or issubclass(r_class, key) or key == Any`.  For a class key
this is equality or `issubclass`; the `Any` key fails the first two tests and
passes the third; a non-class key makes `issubclass` raise `TypeError`
before the `Any` test is reached. -/
def keyMatch (isSub : Nat → Nat → Bool) (rcls : Nat) : Key → Except Err Bool
  | .cls c => .ok (c == rcls || isSub rcls c)
  | .anyK => .ok true
  | .strK _ => .error .typeError

/-- The shared loop of `find_behaviors` and `find_notifications`: walk the
dict in insertion order and concatenate the entry lists of every matching
key (`behaviors = behaviors + val`). -/
def collectEntries (isSub : Nat → Nat → Bool) (rcls : Nat) :
    List (Key × List Nat) → List Nat → Except Err (List Nat)
  | [], acc => .ok acc
  | (k, val) :: rest, acc =>
      match keyMatch isSub rcls k with
      | .error e => .error e
      | .ok true => collectEntries isSub rcls rest (acc ++ val)
      | .ok false => collectEntries isSub rcls rest acc

/-- Model of `find_behaviors(request)`. -/
def find_behaviors {τ α : Type} (w : World τ α) (st : Registry) (rcls : Nat) :
    Except Err (List Nat) :=
  collectEntries w.isSub rcls st.behaviors []

/-- Model of `find_notifications(request)`. -/
def find_notifications {τ α : Type} (w : World τ α) (st : Registry) (rcls : Nat) :
    Except Err (List Nat) :=
  collectEntries w.isSub rcls st.notifications []

/-- Handler resolution inside `__before_send`: exact class key first
(`__handlers__.get(request.__class__)`), then the class name
(`__handlers__.get(request.__class__.__name__)`). -/
def resolveHandler {τ α : Type} (w : World τ α) (tbl : List (Key × Nat)) (rcls : Nat) :
    Option Nat :=
  match lookupKey tbl (.cls rcls) with
  | some h => some h
  | none => lookupKey tbl (.strK (w.clsName rcls))

/-- An element of the pipeline list built by `__before_send`: a registered
behavior (resolved through `__get_function` at call time) or the appended
terminal wrapper `lambda r, next: handler_func(r)`, which ignores its
continuation. -/
inductive BehEntry (τ α : Type) : Type where
  | regd : Nat → BehEntry τ α
  | handlerWrap : (Option Obj → StM τ (AVal τ α)) → BehEntry τ α

/-- Resolve one pipeline element to a callable behavior. -/
def getBehFunc {τ α : Type} (w : World τ α) : BehEntry τ α → BehF τ α
  | .regd i => get_function (w.behSem i)
  | .handlerWrap hf => fun r _next => hf r

/-- Truthiness of the optional `request` argument (`None` is falsy). -/
def truthyOpt : Option Obj → Bool
  | none => false
  | some o => o.truthy

/-- Model of `Mediator.__before_send`.  `self_` is the receiver (`None` when
`send` is pulled off the class and called with `None`); the effective request
is `request or self`.  The steps, in source order: the validator rejects an
absent request; `find_notifications`; handler lookup by class then by name;
the notification-only early return when no handler matched; the validator
rejects a missing handler; `find_behaviors`; the terminal handler wrapper is
appended.  (The returned `self1` only selects the class manager; the default
manager is modelled, so it is dropped.) -/
def before_send {τ α : Type} (w : World τ α) (st : Registry)
    (self_ request : Option Obj) :
    Except Err (List (BehEntry τ α) × List Nat) :=
  let req := if truthyOpt request then request else self_
  match req with
  | none => .error .requestNone
  | some robj =>
    match find_notifications w st robj.cls with
    | .error e => .error e
    | .ok notifications =>
      match resolveHandler w st.handlers robj.cls with
      | none =>
          if notifications.isEmpty then .error .handlerNotFound
          else .ok ([], notifications)
      | some hid =>
          let handler_func := get_function (w.handlerSem hid)
          match find_behaviors w st robj.cls with
          | .error e => .error e
          | .ok bids =>
              .ok (bids.map .regd ++ [.handlerWrap handler_func], notifications)

/-- Model of the inner `start_func` of `Mediator.send`.  In the source,
`start_func(i)` closes over the immutable list `behaviors` and accesses
`behaviors[i]`; here the suffix `behaviors[i:]` is passed, so position `i` is
the head.  `ixerr` stands for the `IndexError` Python would raise on an
out-of-range access (only reachable if the terminal wrapper called its
continuation, which it never does). -/
def start_func {τ α : Type} (w : World τ α) (ixerr : StM τ (AVal τ α))
    (request : Option Obj) : List (BehEntry τ α) → StM τ (AVal τ α)
  | [] => ixerr
  | e :: rest => getBehFunc w e request (fun _ => start_func w ixerr request rest)

/-- Model of the inner `async def start_func` of `Mediator.send_async`.
Calling it creates a coroutine (`.co`) whose body invokes the step with a
continuation that itself only creates the next coroutine, and passes the
step's result through `__return_await__`. -/
def astart {τ α : Type} (w : World τ α) (ixerr : StM τ (AVal τ α))
    (request : Option Obj) : List (BehEntry τ α) → AVal τ α
  | [] => .co ixerr
  | e :: rest => .co (fun s =>
      let p := getBehFunc w e request
        (fun _ => fun s1 => (astart w ixerr request rest, s1)) s
      return_await p.1 p.2)

/-- One iteration of the notification loop of `send`: `n_func(request)`,
result discarded, trace effect kept. -/
def notifStep {τ α : Type} (w : World τ α) (r : Option Obj) (s1 : τ) (nid : Nat) : τ :=
  ((get_function (w.notifSem nid)) r s1).2

/-- One iteration of the notification loop of `send_async`:
`await __return_await__(n_func(request))`, result discarded. -/
def notifStepA {τ α : Type} (w : World τ α) (r : Option Obj) (s1 : τ) (nid : Nat) : τ :=
  let q := (get_function (w.notifSem nid)) r s1
  (return_await q.1 q.2).2

/-- Model of `Mediator.send`.  Matching uses the merged request inside
`__before_send`, but the behaviors, the handler wrapper and the notifications
are invoked with the original `request` argument.  `beh_result` stays `None`
(`Option.none`) when the pipeline list is empty (the notification-only
path). -/
def send {τ α : Type} (w : World τ α) (st : Registry) (self_ request : Option Obj)
    (ixerr : StM τ (AVal τ α)) (s0 : τ) : Except Err (Option (AVal τ α)) × τ :=
  match before_send w st self_ request with
  | .error e => (.error e, s0)
  | .ok (behaviors, notifications) =>
    let p :=
      if behaviors.isEmpty then ((none : Option (AVal τ α)), s0)
      else
        let q := start_func w ixerr request behaviors s0
        (some q.1, q.2)
    let s2 := notifications.foldl (notifStep w request) p.2
    (.ok p.1, s2)

/-- Model of `await Mediator.send_async(...)`: the same structure as `send`,
but the pipeline is the coroutine chain (`await start_func(0)`) and every
notification result passes through `__return_await__`. -/
def send_async {τ α : Type} (w : World τ α) (st : Registry)
    (self_ request : Option Obj) (ixerr : StM τ (AVal τ α)) (s0 : τ) :
    Except Err (Option (AVal τ α)) × τ :=
  match before_send w st self_ request with
  | .error e => (.error e, s0)
  | .ok (behaviors, notifications) =>
    let p :=
      if behaviors.isEmpty then ((none : Option (AVal τ α)), s0)
      else
        let q := return_await (astart w ixerr request behaviors) s0
        (some q.1, q.2)
    let s2 := notifications.foldl (notifStepA w request) p.2
    (.ok p.1, s2)

/-- Model of `Mediator.clear`: all three tables emptied. -/
def clear : Registry := ⟨[], [], []⟩

/-- Model of `Mediator.register_handler`.  `key` is the annotation extracted
by `extract_request_type`; the entry is stored only if the key is absent
(`if not __handlers__.get(request_type)`), so the first registration wins. -/
def register_handler (st : Registry) (key : Key) (hid : Nat) : Registry :=
  match lookupKey st.handlers key with
  | some _ => st
  | none => { st with handlers := dictSet st.handlers key hid }

/-- The shared table update of `register_behavior` and
`register_notification`: create the key's list when it is absent (or falsy,
that is, present but empty), then append the callable unless an equal one is
already in the list. -/
def addEntry (tbl : List (Key × List Nat)) (key : Key) (bid : Nat) :
    List (Key × List Nat) :=
  let tbl1 :=
    match lookupKey tbl key with
    | none => dictSet tbl key []
    | some l => if l.isEmpty then dictSet tbl key [] else tbl
  let cur := (lookupKey tbl1 key).getD []
  if cur.any (fun x => x == bid) then tbl1
  else dictSet tbl1 key (cur ++ [bid])

/-- Model of `Mediator.register_behavior`. -/
def register_behavior (st : Registry) (key : Key) (bid : Nat) : Registry :=
  { st with behaviors := addEntry st.behaviors key bid }

/-- Model of `Mediator.register_notification`. -/
def register_notification (st : Registry) (key : Key) (nid : Nat) : Registry :=
  { st with notifications := addEntry st.notifications key nid }

/-- Register a list of behaviors, in order, under one key. -/
def regBs (st : Registry) (key : Key) (ids : List Nat) : Registry :=
  ids.foldl (fun s b => register_behavior s key b) st

/-- Register a list of notifications, in order, under one key. -/
def regNs (st : Registry) (key : Key) (ids : List Nat) : Registry :=
  ids.foldl (fun s n => register_notification s key n) st

/-- Register several groups of behaviors: each group is a key together with
the callables registered under it, in registration order. -/
def regGroupsB (st : Registry) (groups : List (Key × List Nat)) : Registry :=
  groups.foldl (fun s g => regBs s g.1 g.2) st

/-- Register several groups of notifications. -/
def regGroupsN (st : Registry) (groups : List (Key × List Nat)) : Registry :=
  groups.foldl (fun s g => regNs s g.1 g.2) st

/-! Shapes of test callables.  Theorems about dispatch quantify over worlds
whose callables have these shapes: every callable appends its own event to
the trace when its body runs, which is how invocation order is observed. -/

/-- A synchronous behavior that records the event `e` and then returns the
result of its continuation unchanged (it invokes the continuation exactly
once). -/
def passBeh (e : Nat) : BehF (List Nat) Nat :=
  fun _r next => fun s => next () (s ++ [e])

/-- A synchronous behavior that records the event `e` and returns the plain
value `bv` without ever invoking its continuation (a short-circuit). -/
def stopBeh (e : Nat) (bv : Nat) : BehF (List Nat) Nat :=
  fun _r _next => fun s => (.v bv, s ++ [e])

/-- A synchronous handler that records the event `e` and returns the plain
value `hv`. -/
def syncHandler (e hv : Nat) : Option Obj → StM (List Nat) (AVal (List Nat) Nat) :=
  fun _r => fun s => (.v hv, s ++ [e])

/-- A synchronous notification that records the event `e` (its return value
is discarded by dispatch). -/
def syncNotif (e : Nat) : Option Obj → StM (List Nat) (AVal (List Nat) Nat) :=
  fun _r => fun s => (.v 0, s ++ [e])

/-! Spec-side descriptions, written from the words of the specification, to
be compared with the matching computed by the source functions. -/

/-- Stated from the spec: an entry bound to `K` matches a request of runtime
type `T` when `K == T`, or `T` is a descendant of `K`, or `K` is the
wildcard; a non-class key matches nothing. -/
def specKeyMatches (isSub : Nat → Nat → Bool) (rcls : Nat) : Key → Bool
  | .cls c => c == rcls || isSub rcls c
  | .anyK => true
  | .strK _ => false

/-- Stated from the spec: all matching entries across all registered keys are
collected, in key first-registration order, each key preserving its own
registration order. -/
def specMatchedOrder (isSub : Nat → Nat → Bool) (rcls : Nat)
    (groups : List (Key × List Nat)) : List Nat :=
  groups.foldl (fun acc g => if specKeyMatches isSub rcls g.1 then acc ++ g.2 else acc) []

/-! Association-list lemmas about the dict model. -/

theorem lookupKey_dictSet_self {β : Type} (l : List (Key × β)) (k : Key) (v : β) :
    lookupKey (dictSet l k v) k = some v := by
  induction l with
  | nil => simp [dictSet, lookupKey]
  | cons p t ih =>
      by_cases h : p.1 = k
      · simp [dictSet, lookupKey, h]
      · simp [dictSet, lookupKey, h, ih]

theorem lookupKey_dictSet_ne {β : Type} (l : List (Key × β)) (k k1 : Key) (v : β)
    (h : k1 ≠ k) : lookupKey (dictSet l k v) k1 = lookupKey l k1 := by
  induction l with
  | nil => simp [dictSet, lookupKey, Ne.symm h]
  | cons p t ih =>
      by_cases hp : p.1 = k
      · simp [dictSet, lookupKey, hp, Ne.symm h]
      · simp [dictSet, lookupKey, hp, ih]

theorem dictSet_fresh {β : Type} (l : List (Key × β)) (k : Key) (v : β)
    (h : lookupKey l k = none) : dictSet l k v = l ++ [(k, v)] := by
  induction l with
  | nil => simp [dictSet]
  | cons p t ih =>
      by_cases hp : p.1 = k
      · simp [lookupKey, hp] at h
      · simp [lookupKey, hp] at h
        simp [dictSet, hp, ih h]

theorem dictSet_keep {β : Type} (l : List (Key × β)) (k : Key) (v : β)
    (h : lookupKey l k = some v) : dictSet l k v = l := by
  induction l with
  | nil => simp [lookupKey] at h
  | cons p t ih =>
      obtain ⟨pk, pv⟩ := p
      by_cases hp : pk = k
      · simp [lookupKey, hp] at h
        simp [dictSet, hp, h]
      · simp [lookupKey, hp] at h
        simp [dictSet, hp, ih h]

theorem dictSet_dictSet {β : Type} (l : List (Key × β)) (k : Key) (v u : β) :
    dictSet (dictSet l k v) k u = dictSet l k u := by
  induction l with
  | nil => simp [dictSet]
  | cons p t ih =>
      by_cases hp : p.1 = k
      · simp [dictSet, hp]
      · simp [dictSet, hp, ih]

theorem lookupKey_append {β : Type} (l1 l2 : List (Key × β)) (k : Key) :
    lookupKey (l1 ++ l2) k =
      match lookupKey l1 k with
      | some v => some v
      | none => lookupKey l2 k := by
  induction l1 with
  | nil => simp [lookupKey]
  | cons p t ih =>
      by_cases hp : p.1 = k
      · simp [lookupKey, hp]
      · simp [lookupKey, hp, ih]

theorem dictSet_append_hit {β : Type} (l1 l2 : List (Key × β)) (k : Key) (v u : β)
    (h : lookupKey l1 k = none) :
    dictSet (l1 ++ (k, v) :: l2) k u = l1 ++ (k, u) :: l2 := by
  induction l1 with
  | nil => simp [dictSet]
  | cons p t ih =>
      by_cases hp : p.1 = k
      · simp [lookupKey, hp] at h
      · simp [lookupKey, hp] at h
        simp [dictSet, hp, ih h]

/-! Behaviour of the registration table update. -/

theorem addEntry_fresh (tbl : List (Key × List Nat)) (k : Key) (b : Nat)
    (h : lookupKey tbl k = none) : addEntry tbl k b = tbl ++ [(k, [b])] := by
  unfold addEntry
  rw [h]
  simp only [dictSet_fresh tbl k [] h]
  rw [lookupKey_append]
  simp [h, lookupKey]
  rw [dictSet_append_hit tbl [] k [] [b] h]

theorem addEntry_existing (tbl : List (Key × List Nat)) (k : Key) (b : Nat)
    (acc : List Nat) (h : lookupKey tbl k = some acc) (hne : acc ≠ [])
    (hb : b ∉ acc) : addEntry tbl k b = dictSet tbl k (acc ++ [b]) := by
  unfold addEntry
  rw [h]
  simp only [List.isEmpty_eq_true, hne, if_false]
  rw [h]
  have hany : acc.any (fun x => x == b) = false := by
    simp only [List.any_eq_false]
    intro x hx
    simp only [beq_iff_eq]
    intro hxb
    exact hb (hxb ▸ hx)
  simp [hany]

/-- Registering a list of fresh-keyed behaviors in order stores them, in
order, under that key, appended at the end of the table. -/
theorem addEntries_acc (ids : List Nat) (tbl : List (Key × List Nat)) (k : Key)
    (acc : List Nat) (h : lookupKey tbl k = some acc) (hne : acc ≠ [])
    (hnd : ids.Nodup) (hdis : ∀ i ∈ ids, i ∉ acc) :
    ids.foldl (fun t i => addEntry t k i) tbl = dictSet tbl k (acc ++ ids) := by
  induction ids generalizing tbl acc with
  | nil => simpa using (dictSet_keep tbl k acc h).symm
  | cons i rest ih =>
      simp only [List.foldl_cons]
      rw [addEntry_existing tbl k i acc h hne (hdis i (by simp))]
      have h1 : lookupKey (dictSet tbl k (acc ++ [i])) k = some (acc ++ [i]) :=
        lookupKey_dictSet_self tbl k (acc ++ [i])
      have hnd1 : rest.Nodup := (List.nodup_cons.mp hnd).2
      have hdis1 : ∀ j ∈ rest, j ∉ acc ++ [i] := by
        intro j hj
        simp only [List.mem_append, List.mem_singleton]
        rintro (hja | hji)
        · exact hdis j (by simp [hj]) hja
        · exact (List.nodup_cons.mp hnd).1 (hji ▸ hj)
      rw [ih (dictSet tbl k (acc ++ [i])) (acc ++ [i]) h1 (by simp) hnd1 hdis1]
      rw [dictSet_dictSet]
      simp

theorem addEntries_fresh (ids : List Nat) (tbl : List (Key × List Nat)) (k : Key)
    (h : lookupKey tbl k = none) (hnd : ids.Nodup) (hne : ids ≠ []) :
    ids.foldl (fun t i => addEntry t k i) tbl = tbl ++ [(k, ids)] := by
  match ids with
  | [] => exact absurd rfl hne
  | i :: rest =>
      simp only [List.foldl_cons]
      rw [addEntry_fresh tbl k i h]
      have h1 : lookupKey (tbl ++ [(k, [i])]) k = some [i] := by
        rw [lookupKey_append, h]
        simp [lookupKey]
      have hnd1 : rest.Nodup := (List.nodup_cons.mp hnd).2
      have hdis1 : ∀ j ∈ rest, j ∉ [i] := by
        intro j hj
        simp only [List.mem_singleton]
        intro hji
        exact (List.nodup_cons.mp hnd).1 (hji ▸ hj)
      rw [addEntries_acc rest (tbl ++ [(k, [i])]) k [i] h1 (by simp) hnd1 hdis1]
      rw [dictSet_append_hit tbl [] k [i] ([i] ++ rest) h]
      simp

/-- Registering several groups with pairwise-distinct fresh keys produces the
table whose entries are exactly those groups, in registration order. -/
theorem addGroups_fresh (groups : List (Key × List Nat))
    (tbl : List (Key × List Nat))
    (hfresh : ∀ g ∈ groups, lookupKey tbl g.1 = none)
    (hkeys : (groups.map Prod.fst).Nodup)
    (hgood : ∀ g ∈ groups, g.2 ≠ [] ∧ g.2.Nodup) :
    groups.foldl (fun t g => g.2.foldl (fun t1 i => addEntry t1 g.1 i) t) tbl =
      tbl ++ groups := by
  induction groups generalizing tbl with
  | nil => simp
  | cons g gs ih =>
      obtain ⟨gne, gnd⟩ := hgood g (by simp)
      have hk2 : g.1 ∉ gs.map Prod.fst ∧ (gs.map Prod.fst).Nodup := by
        rw [List.map_cons] at hkeys
        exact List.nodup_cons.mp hkeys
      simp only [List.foldl_cons]
      rw [addEntries_fresh g.2 tbl g.1 (hfresh g (by simp)) gnd gne]
      have hfresh1 : ∀ g1 ∈ gs, lookupKey (tbl ++ [(g.1, g.2)]) g1.1 = none := by
        intro g1 hg1
        rw [lookupKey_append, hfresh g1 (by simp [hg1])]
        have hne1 : g1.1 ≠ g.1 := by
          intro he
          exact hk2.1 (he ▸ List.mem_map_of_mem Prod.fst hg1)
        simp [lookupKey, Ne.symm hne1]
      have hkeys1 : (gs.map Prod.fst).Nodup := hk2.2
      have hgood1 : ∀ g1 ∈ gs, g1.2 ≠ [] ∧ g1.2.Nodup :=
        fun g1 hg1 => hgood g1 (by simp [hg1])
      rw [ih (tbl ++ [(g.1, g.2)]) hfresh1 hkeys1 hgood1]
      simp

/-! The registration functions only touch their own table. -/

theorem regBs_handlers (st : Registry) (k : Key) (ids : List Nat) :
    (regBs st k ids).handlers = st.handlers := by
  induction ids generalizing st with
  | nil => rfl
  | cons i rest ih => exact ih (register_behavior st k i)

theorem regBs_notifications (st : Registry) (k : Key) (ids : List Nat) :
    (regBs st k ids).notifications = st.notifications := by
  induction ids generalizing st with
  | nil => rfl
  | cons i rest ih => exact ih (register_behavior st k i)

theorem regBs_behaviors (st : Registry) (k : Key) (ids : List Nat) :
    (regBs st k ids).behaviors = ids.foldl (fun t i => addEntry t k i) st.behaviors := by
  induction ids generalizing st with
  | nil => rfl
  | cons i rest ih =>
      simp only [regBs, List.foldl_cons]
      exact ih (register_behavior st k i)

theorem regNs_handlers (st : Registry) (k : Key) (ids : List Nat) :
    (regNs st k ids).handlers = st.handlers := by
  induction ids generalizing st with
  | nil => rfl
  | cons i rest ih => exact ih (register_notification st k i)

theorem regNs_behaviors (st : Registry) (k : Key) (ids : List Nat) :
    (regNs st k ids).behaviors = st.behaviors := by
  induction ids generalizing st with
  | nil => rfl
  | cons i rest ih => exact ih (register_notification st k i)

theorem regNs_notifications (st : Registry) (k : Key) (ids : List Nat) :
    (regNs st k ids).notifications =
      ids.foldl (fun t i => addEntry t k i) st.notifications := by
  induction ids generalizing st with
  | nil => rfl
  | cons i rest ih =>
      simp only [regNs, List.foldl_cons]
      exact ih (register_notification st k i)

/-! Evaluation of the matching loop. -/

theorem keyMatch_of_notStr (isSub : Nat → Nat → Bool) (rcls : Nat) (k : Key)
    (h : Key.isStr k = false) :
    keyMatch isSub rcls k = .ok (specKeyMatches isSub rcls k) := by
  cases k with
  | cls c => rfl
  | anyK => rfl
  | strK s => simp [Key.isStr] at h

theorem collectEntries_clean (isSub : Nat → Nat → Bool) (rcls : Nat)
    (tbl : List (Key × List Nat)) (acc : List Nat)
    (h : ∀ p ∈ tbl, Key.isStr p.1 = false) :
    collectEntries isSub rcls tbl acc =
      .ok (tbl.foldl (fun a p => if specKeyMatches isSub rcls p.1 then a ++ p.2 else a) acc) := by
  induction tbl generalizing acc with
  | nil => rfl
  | cons p rest ih =>
      have hp : Key.isStr p.1 = false := h p (by simp)
      have hrest : ∀ q ∈ rest, Key.isStr q.1 = false := fun q hq => h q (by simp [hq])
      simp only [collectEntries, keyMatch_of_notStr isSub rcls p.1 hp, List.foldl_cons]
      by_cases hm : specKeyMatches isSub rcls p.1
      · simp only [hm, if_true]
        exact ih (acc ++ p.2) hrest
      · simp only [Bool.not_eq_true] at hm
        simp only [hm, if_false, Bool.false_eq_true]
        exact ih acc hrest

theorem collectEntries_poisoned (isSub : Nat → Nat → Bool) (rcls : Nat)
    (tbl : List (Key × List Nat)) (acc : List Nat)
    (h : ∃ p ∈ tbl, Key.isStr p.1 = true) :
    collectEntries isSub rcls tbl acc = .error .typeError := by
  induction tbl generalizing acc with
  | nil => simp at h
  | cons p rest ih =>
      match hk : p.1 with
      | .strK s => simp [collectEntries, hk, keyMatch]
      | .cls c =>
          obtain ⟨q, hq, hqs⟩ := h
          rcases List.mem_cons.mp hq with he | hm
          · rw [he, hk] at hqs
            simp [Key.isStr] at hqs
          · simp only [collectEntries, hk, keyMatch]
            by_cases hb : (c == rcls || isSub rcls c)
            · simp only [hb]
              exact ih (acc ++ p.2) ⟨q, hm, hqs⟩
            · simp only [Bool.not_eq_true] at hb
              simp only [hb]
              exact ih acc ⟨q, hm, hqs⟩
      | .anyK =>
          obtain ⟨q, hq, hqs⟩ := h
          rcases List.mem_cons.mp hq with he | hm
          · rw [he, hk] at hqs
            simp [Key.isStr] at hqs
          · simp only [collectEntries, hk, keyMatch]
            exact ih (acc ++ p.2) ⟨q, hm, hqs⟩

/-! Evaluation of the two pipeline executors on shaped behavior lists. -/

theorem regd_shape (w : World (List Nat) Nat) (bids : List Nat) (evs : List Nat)
    (h : List.Forall₂ (fun b ev => w.behSem b = .func (passBeh ev)) bids evs) :
    List.Forall₂ (fun e ev => getBehFunc w e = passBeh ev)
      (bids.map BehEntry.regd) evs := by
  induction h with
  | nil => exact List.Forall₂.nil
  | cons h1 _h2 ih =>
      simp only [List.map_cons]
      exact List.Forall₂.cons (by simp [getBehFunc, h1, get_function]) ih

/-- Running the blocking pipeline through a prefix of pass-through behaviors
records their events, in order, and continues with the rest of the list. -/
theorem start_pass_front (w : World (List Nat) Nat)
    (ix : StM (List Nat) (AVal (List Nat) Nat)) (r : Option Obj)
    (l : List (BehEntry (List Nat) Nat)) (es : List Nat)
    (h : List.Forall₂ (fun e ev => getBehFunc w e = passBeh ev) l es)
    (l2 : List (BehEntry (List Nat) Nat)) (s : List Nat) :
    start_func w ix r (l ++ l2) s = start_func w ix r l2 (s ++ es) := by
  induction h generalizing s with
  | nil => simp
  | @cons a ev l1 es2 h1 _h2 ih =>
      have hstep : start_func w ix r ((a :: l1) ++ l2) s =
          getBehFunc w a r (fun _ => start_func w ix r (l1 ++ l2)) s := rfl
      rw [hstep, h1]
      have hstep2 : passBeh ev r (fun _ => start_func w ix r (l1 ++ l2)) s =
          start_func w ix r (l1 ++ l2) (s ++ [ev]) := rfl
      rw [hstep2, ih]
      simp

/-- Running the suspendable pipeline through a prefix of pass-through
behaviors records their events, in order, and continues with the rest: each
behavior hands the unawaited coroutine of its continuation back, and the
enclosing hop resolves it. -/
theorem astart_pass_front (w : World (List Nat) Nat)
    (ix : StM (List Nat) (AVal (List Nat) Nat)) (r : Option Obj)
    (l : List (BehEntry (List Nat) Nat)) (es : List Nat)
    (h : List.Forall₂ (fun e ev => getBehFunc w e = passBeh ev) l es)
    (l2 : List (BehEntry (List Nat) Nat)) (s : List Nat) :
    return_await (astart w ix r (l ++ l2)) s =
      return_await (astart w ix r l2) (s ++ es) := by
  induction h generalizing s with
  | nil => simp
  | @cons a ev l1 es2 h1 _h2 ih =>
      have hstep : return_await (astart w ix r ((a :: l1) ++ l2)) s =
          (let p := getBehFunc w a r
            (fun _ => fun s2 => (astart w ix r (l1 ++ l2), s2)) s
           return_await p.1 p.2) := rfl
      rw [hstep, h1]
      have hstep2 :
          (let p := passBeh ev r
            (fun _ => fun s2 => (astart w ix r (l1 ++ l2), s2)) s
           return_await p.1 p.2) =
          return_await (astart w ix r (l1 ++ l2)) (s ++ [ev]) := rfl
      rw [hstep2, ih]
      simp

theorem start_sync_handler (w : World (List Nat) Nat)
    (ix : StM (List Nat) (AVal (List Nat) Nat)) (r : Option Obj)
    (hev hv : Nat) (s : List Nat) :
    start_func w ix r [.handlerWrap (syncHandler hev hv)] s = (.v hv, s ++ [hev]) := rfl

theorem astart_sync_handler (w : World (List Nat) Nat)
    (ix : StM (List Nat) (AVal (List Nat) Nat)) (r : Option Obj)
    (hev hv : Nat) (s : List Nat) :
    return_await (astart w ix r [.handlerWrap (syncHandler hev hv)]) s =
      (.v hv, s ++ [hev]) := rfl

theorem start_stop (w : World (List Nat) Nat)
    (ix : StM (List Nat) (AVal (List Nat) Nat)) (r : Option Obj)
    (b : BehEntry (List Nat) Nat) (ev bv : Nat)
    (hb : getBehFunc w b = stopBeh ev bv)
    (rest : List (BehEntry (List Nat) Nat)) (s : List Nat) :
    start_func w ix r (b :: rest) s = (.v bv, s ++ [ev]) := by
  simp [start_func, hb, stopBeh]

theorem astart_stop (w : World (List Nat) Nat)
    (ix : StM (List Nat) (AVal (List Nat) Nat)) (r : Option Obj)
    (b : BehEntry (List Nat) Nat) (ev bv : Nat)
    (hb : getBehFunc w b = stopBeh ev bv)
    (rest : List (BehEntry (List Nat) Nat)) (s : List Nat) :
    return_await (astart w ix r (b :: rest)) s = (.v bv, s ++ [ev]) := by
  simp [astart, return_await, hb, stopBeh]

/-- The synchronous notification loop of `send` over synchronous
notifications records their events in matched order. -/
theorem notifs_sync (w : World (List Nat) Nat) (r : Option Obj)
    (nids nevs : List Nat)
    (h : List.Forall₂ (fun n ev => w.notifSem n = .func (syncNotif ev)) nids nevs)
    (s : List Nat) :
    nids.foldl (notifStep w r) s = s ++ nevs := by
  induction h generalizing s with
  | nil => simp
  | @cons a ev l1 es2 h1 _h2 ih =>
      have hstep : notifStep w r s a = s ++ [ev] := by
        unfold notifStep
        rw [h1]
        rfl
      rw [List.foldl_cons, hstep, ih]
      simp

/-- The notification loop of `send_async` over synchronous notifications
records the same events in the same order (`__return_await__` is the
identity on a plain value). -/
theorem notifs_async (w : World (List Nat) Nat) (r : Option Obj)
    (nids nevs : List Nat)
    (h : List.Forall₂ (fun n ev => w.notifSem n = .func (syncNotif ev)) nids nevs)
    (s : List Nat) :
    nids.foldl (notifStepA w r) s = s ++ nevs := by
  induction h generalizing s with
  | nil => simp
  | @cons a ev l1 es2 h1 _h2 ih =>
      have hstep : notifStepA w r s a = s ++ [ev] := by
        unfold notifStepA
        rw [h1]
        rfl
      rw [List.foldl_cons, hstep, ih]
      simp

/-! Evaluation of `__before_send` and of the two entry points on resolved
registries. -/

theorem before_send_ok (w : World (List Nat) Nat) (st : Registry)
    (self_ : Option Obj) (r : Obj) (hid : Nat) (nids bids : List Nat)
    (ht : r.truthy = true)
    (hn : find_notifications w st r.cls = .ok nids)
    (hh : resolveHandler w st.handlers r.cls = some hid)
    (hb : find_behaviors w st r.cls = .ok bids) :
    before_send w st self_ (some r) =
      .ok (bids.map .regd ++ [.handlerWrap (get_function (w.handlerSem hid))], nids) := by
  unfold before_send
  simp only [truthyOpt, ht, if_true, hn, hh, hb]

theorem before_send_notifOnly (w : World (List Nat) Nat) (st : Registry)
    (self_ : Option Obj) (r : Obj) (nids : List Nat)
    (ht : r.truthy = true)
    (hn : find_notifications w st r.cls = .ok nids)
    (hh : resolveHandler w st.handlers r.cls = none)
    (hne : nids.isEmpty = false) :
    before_send w st self_ (some r) = .ok ([], nids) := by
  unfold before_send
  simp only [truthyOpt, ht, if_true, hn, hh, hne, Bool.false_eq_true, if_false]

theorem before_send_noHandler (w : World (List Nat) Nat) (st : Registry)
    (self_ : Option Obj) (r : Obj)
    (ht : r.truthy = true)
    (hn : find_notifications w st r.cls = .ok [])
    (hh : resolveHandler w st.handlers r.cls = none) :
    before_send w st self_ (some r) = .error .handlerNotFound := by
  unfold before_send
  simp only [truthyOpt, ht, if_true, hn, hh, List.isEmpty_nil, if_true]

theorem send_eval_pipeline (w : World (List Nat) Nat) (st : Registry)
    (self_ request : Option Obj) (ix : StM (List Nat) (AVal (List Nat) Nat))
    (s0 : List Nat) (entries : List (BehEntry (List Nat) Nat)) (nids : List Nat)
    (hbs : before_send w st self_ request = .ok (entries, nids))
    (hne : entries.isEmpty = false) :
    send w st self_ request ix s0 =
      (.ok (some (start_func w ix request entries s0).1),
       nids.foldl (notifStep w request) (start_func w ix request entries s0).2) := by
  unfold send
  rw [hbs]
  simp only [hne, Bool.false_eq_true, if_false]

theorem send_async_eval_pipeline (w : World (List Nat) Nat) (st : Registry)
    (self_ request : Option Obj) (ix : StM (List Nat) (AVal (List Nat) Nat))
    (s0 : List Nat) (entries : List (BehEntry (List Nat) Nat)) (nids : List Nat)
    (hbs : before_send w st self_ request = .ok (entries, nids))
    (hne : entries.isEmpty = false) :
    send_async w st self_ request ix s0 =
      (.ok (some (return_await (astart w ix request entries) s0).1),
       nids.foldl (notifStepA w request) (return_await (astart w ix request entries) s0).2) := by
  unfold send_async
  rw [hbs]
  simp only [hne, Bool.false_eq_true, if_false]

theorem send_eval_noPipeline (w : World (List Nat) Nat) (st : Registry)
    (self_ request : Option Obj) (ix : StM (List Nat) (AVal (List Nat) Nat))
    (s0 : List Nat) (nids : List Nat)
    (hbs : before_send w st self_ request = .ok ([], nids)) :
    send w st self_ request ix s0 =
      (.ok none, nids.foldl (notifStep w request) s0) := by
  unfold send
  rw [hbs]
  simp only [List.isEmpty_nil, if_true]

theorem send_async_eval_noPipeline (w : World (List Nat) Nat) (st : Registry)
    (self_ request : Option Obj) (ix : StM (List Nat) (AVal (List Nat) Nat))
    (s0 : List Nat) (nids : List Nat)
    (hbs : before_send w st self_ request = .ok ([], nids)) :
    send_async w st self_ request ix s0 =
      (.ok none, nids.foldl (notifStepA w request) s0) := by
  unfold send_async
  rw [hbs]
  simp only [List.isEmpty_nil, if_true]

theorem send_eval_err (w : World (List Nat) Nat) (st : Registry)
    (self_ request : Option Obj) (ix : StM (List Nat) (AVal (List Nat) Nat))
    (s0 : List Nat) (e : Err)
    (hbs : before_send w st self_ request = .error e) :
    send w st self_ request ix s0 = (.error e, s0) := by
  unfold send
  rw [hbs]

theorem send_async_eval_err (w : World (List Nat) Nat) (st : Registry)
    (self_ request : Option Obj) (ix : StM (List Nat) (AVal (List Nat) Nat))
    (s0 : List Nat) (e : Err)
    (hbs : before_send w st self_ request = .error e) :
    send_async w st self_ request ix s0 = (.error e, s0) := by
  unfold send_async
  rw [hbs]

/-! Tables produced by registering one handler and one group of behaviors
under the same key, starting from an empty registry. -/

theorem regOne_handlers (k k2 : Key) (hid : Nat) (bids : List Nat) :
    (regBs (register_handler clear k hid) k2 bids).handlers = [(k, hid)] := by
  rw [regBs_handlers]
  rfl

theorem regOne_notifications (k k2 : Key) (hid : Nat) (bids : List Nat) :
    (regBs (register_handler clear k hid) k2 bids).notifications = [] := by
  rw [regBs_notifications]
  rfl

theorem regOne_behaviors (k : Key) (hid : Nat) (bids : List Nat)
    (hnd : bids.Nodup) :
    (regBs (register_handler clear k hid) k bids).behaviors =
      if bids.isEmpty then [] else [(k, bids)] := by
  rw [regBs_behaviors]
  have hbase : (register_handler clear k hid).behaviors = [] := by
    unfold register_handler clear
    simp [lookupKey]
  rw [hbase]
  match bids with
  | [] => rfl
  | b :: rest =>
      simp only [List.isEmpty_cons, Bool.false_eq_true, if_false]
      have := addEntries_fresh (b :: rest) [] k (by rfl) hnd (by simp)
      simpa using this

theorem find_behaviors_regOne (w : World (List Nat) Nat) (T hid : Nat)
    (bids : List Nat) (hnd : bids.Nodup) :
    find_behaviors w (regBs (register_handler clear (.cls T) hid) (.cls T) bids) T =
      .ok bids := by
  unfold find_behaviors
  rw [regOne_behaviors (.cls T) hid bids hnd]
  match bids with
  | [] => rfl
  | b :: rest =>
      simp only [List.isEmpty_cons, Bool.false_eq_true, if_false]
      simp [collectEntries, keyMatch]

theorem find_notifications_regOne (w : World (List Nat) Nat) (T hid rcls : Nat)
    (bids : List Nat) :
    find_notifications w (regBs (register_handler clear (.cls T) hid) (.cls T) bids) rcls =
      .ok [] := by
  unfold find_notifications
  rw [regOne_notifications]
  rfl

theorem resolveHandler_regOne (w : World (List Nat) Nat) (T hid : Nat)
    (bids : List Nat) :
    resolveHandler w
      (regBs (register_handler clear (.cls T) hid) (.cls T) bids).handlers T =
      some hid := by
  unfold resolveHandler
  rw [regOne_handlers]
  simp [lookupKey]

/-- C1: for a request type with a registered handler and N registered
behaviors that each record their event and invoke their continuation exactly
once (returning its result unchanged), both `send` and `send_async` run the
behaviors in registration order, then the handler exactly once, and return
the handler's result up through the chain: the final trace is the behavior
events in registration order followed by the single handler event, and the
returned value is the handler's value. -/
theorem C1_behaviors_in_order_then_handler
    (w : World (List Nat) Nat) (self_ : Option Obj) (r : Obj) (hid : Nat)
    (bids evs : List Nat) (hv hev : Nat)
    (ix : StM (List Nat) (AVal (List Nat) Nat)) (s0 : List Nat)
    (ht : r.truthy = true) (hnd : bids.Nodup)
    (hbe : List.Forall₂ (fun b e => w.behSem b = .func (passBeh e)) bids evs)
    (hhs : w.handlerSem hid = .func (syncHandler hev hv)) :
    send w (regBs (register_handler clear (.cls r.cls) hid) (.cls r.cls) bids)
        self_ (some r) ix s0 = (.ok (some (.v hv)), s0 ++ evs ++ [hev]) ∧
    send_async w (regBs (register_handler clear (.cls r.cls) hid) (.cls r.cls) bids)
        self_ (some r) ix s0 = (.ok (some (.v hv)), s0 ++ evs ++ [hev]) := by
  have hbs : before_send w
      (regBs (register_handler clear (.cls r.cls) hid) (.cls r.cls) bids)
      self_ (some r) =
      .ok (bids.map .regd ++ [.handlerWrap (syncHandler hev hv)], []) := by
    have := before_send_ok w
      (regBs (register_handler clear (.cls r.cls) hid) (.cls r.cls) bids)
      self_ r hid [] bids ht
      (find_notifications_regOne w r.cls hid r.cls bids)
      (resolveHandler_regOne w r.cls hid bids)
      (find_behaviors_regOne w r.cls hid bids hnd)
    rw [hhs] at this
    exact this
  have hne : (bids.map BehEntry.regd ++
      [BehEntry.handlerWrap (syncHandler hev hv)]).isEmpty = false := by
    simp
  have hshape := regd_shape w bids evs hbe
  have hrun : start_func w ix (some r)
      (bids.map .regd ++ [.handlerWrap (syncHandler hev hv)]) s0 =
      (.v hv, s0 ++ evs ++ [hev]) := by
    rw [start_pass_front w ix (some r) (bids.map .regd) evs hshape
      [.handlerWrap (syncHandler hev hv)] s0]
    rw [start_sync_handler]
  have harun : return_await (astart w ix (some r)
      (bids.map .regd ++ [.handlerWrap (syncHandler hev hv)])) s0 =
      (.v hv, s0 ++ evs ++ [hev]) := by
    rw [astart_pass_front w ix (some r) (bids.map .regd) evs hshape
      [.handlerWrap (syncHandler hev hv)] s0]
    rw [astart_sync_handler]
  constructor
  · rw [send_eval_pipeline w _ self_ (some r) ix s0 _ [] hbs hne, hrun]
    simp
  · rw [send_async_eval_pipeline w _ self_ (some r) ix s0 _ [] hbs hne, harun]
    simp

/-! Concrete environments used to instantiate the theorems. -/

/-- A concrete world: class 1 is a proper subclass of class 0; callable 50 is
a short-circuiting behavior; every other behavior id is a pass-through
behavior recording its own id; handler id h records 100+h and returns 200+h;
notification id n records 300+n. -/
def wEx : World (List Nat) Nat where
  isSub := fun a b => a == 1 && b == 0
  clsName := fun _ => "c"
  handlerSem := fun h => .func (syncHandler (100 + h) (200 + h))
  behSem := fun b => if b == 50 then .func (stopBeh 50 7) else .func (passBeh b)
  notifSem := fun n => .func (syncNotif (300 + n))

/-- A concrete `IndexError` placeholder for the executors. -/
def ixNat : StM (List Nat) (AVal (List Nat) Nat) := fun s => (.v 0, s)

/-- Witness for C1 at a concrete input: request class 0, handler id 5,
behaviors 1 and 2 registered in that order; both entry points return the
handler value 205, and the trace records behavior 1, behavior 2, then the
handler event 105. -/
theorem C1_witness :
    (⟨0, true⟩ : Obj).truthy = true ∧ [1, 2].Nodup ∧
    List.Forall₂ (fun b e => wEx.behSem b = .func (passBeh e)) [1, 2] [1, 2] ∧
    wEx.handlerSem 5 = .func (syncHandler 105 205) ∧
    (send wEx (regBs (register_handler clear (.cls 0) 5) (.cls 0) [1, 2])
        none (some ⟨0, true⟩) ixNat [] = (.ok (some (.v 205)), [] ++ [1, 2] ++ [105]) ∧
     send_async wEx (regBs (register_handler clear (.cls 0) 5) (.cls 0) [1, 2])
        none (some ⟨0, true⟩) ixNat [] = (.ok (some (.v 205)), [] ++ [1, 2] ++ [105])) :=
  ⟨rfl, by decide,
   List.Forall₂.cons rfl (List.Forall₂.cons rfl List.Forall₂.nil), rfl,
   C1_behaviors_in_order_then_handler wEx none ⟨0, true⟩ 5 [1, 2] [1, 2] 205 105
     ixNat [] rfl (by decide)
     (List.Forall₂.cons rfl (List.Forall₂.cons rfl List.Forall₂.nil)) rfl⟩

/-- C2: when a matched behavior records its event and returns its own value
without ever invoking its continuation, while the behaviors registered before
it are pass-through, both `send` and `send_async` return that behavior's own
value, and neither the handler nor any behavior registered after it is ever
invoked: the final trace stops at the short-circuiting behavior's event, and
the behaviors after it as well as the handler may have arbitrary semantics
without affecting the result. -/
theorem C2_short_circuit
    (w : World (List Nat) Nat) (self_ : Option Obj) (r : Obj) (hid : Nat)
    (pre : List Nat) (sb : Nat) (post : List Nat) (evs : List Nat) (sev bv : Nat)
    (ix : StM (List Nat) (AVal (List Nat) Nat)) (s0 : List Nat)
    (ht : r.truthy = true) (hnd : (pre ++ sb :: post).Nodup)
    (hbe : List.Forall₂ (fun b e => w.behSem b = .func (passBeh e)) pre evs)
    (hsb : w.behSem sb = .func (stopBeh sev bv)) :
    send w (regBs (register_handler clear (.cls r.cls) hid) (.cls r.cls)
        (pre ++ sb :: post)) self_ (some r) ix s0 =
      (.ok (some (.v bv)), s0 ++ evs ++ [sev]) ∧
    send_async w (regBs (register_handler clear (.cls r.cls) hid) (.cls r.cls)
        (pre ++ sb :: post)) self_ (some r) ix s0 =
      (.ok (some (.v bv)), s0 ++ evs ++ [sev]) := by
  have hbs : before_send w
      (regBs (register_handler clear (.cls r.cls) hid) (.cls r.cls) (pre ++ sb :: post))
      self_ (some r) =
      .ok ((pre ++ sb :: post).map .regd ++
        [.handlerWrap (get_function (w.handlerSem hid))], []) :=
    before_send_ok w _ self_ r hid [] (pre ++ sb :: post) ht
      (find_notifications_regOne w r.cls hid r.cls (pre ++ sb :: post))
      (resolveHandler_regOne w r.cls hid (pre ++ sb :: post))
      (find_behaviors_regOne w r.cls hid (pre ++ sb :: post) hnd)
  have hne : ((pre ++ sb :: post).map BehEntry.regd ++
      [BehEntry.handlerWrap (get_function (w.handlerSem hid))]).isEmpty = false := by
    simp
  have hshape := regd_shape w pre evs hbe
  have hsplit : (pre ++ sb :: post).map BehEntry.regd ++
      [BehEntry.handlerWrap (get_function (w.handlerSem hid))] =
      pre.map .regd ++ (BehEntry.regd sb ::
        (post.map .regd ++ [.handlerWrap (get_function (w.handlerSem hid))])) := by
    simp
  have hstopf : getBehFunc w (BehEntry.regd sb) = stopBeh sev bv := by
    simp [getBehFunc, hsb, get_function]
  have hrun : start_func w ix (some r)
      ((pre ++ sb :: post).map BehEntry.regd ++
        [BehEntry.handlerWrap (get_function (w.handlerSem hid))]) s0 =
      (.v bv, s0 ++ evs ++ [sev]) := by
    rw [hsplit]
    rw [start_pass_front w ix (some r) (pre.map .regd) evs hshape _ s0]
    rw [start_stop w ix (some r) (BehEntry.regd sb) sev bv hstopf _ (s0 ++ evs)]
  have harun : return_await (astart w ix (some r)
      ((pre ++ sb :: post).map BehEntry.regd ++
        [BehEntry.handlerWrap (get_function (w.handlerSem hid))])) s0 =
      (.v bv, s0 ++ evs ++ [sev]) := by
    rw [hsplit]
    rw [astart_pass_front w ix (some r) (pre.map .regd) evs hshape _ s0]
    rw [astart_stop w ix (some r) (BehEntry.regd sb) sev bv hstopf _ (s0 ++ evs)]
  constructor
  · rw [send_eval_pipeline w _ self_ (some r) ix s0 _ [] hbs hne, hrun]
    simp
  · rw [send_async_eval_pipeline w _ self_ (some r) ix s0 _ [] hbs hne, harun]
    simp

/-- Witness for C2 at a concrete input: behaviors 1, then the short-circuit
behavior 50, then 3 are registered for class 0 with handler 5; dispatch
returns the behavior value 7 and the trace stops at event 50: neither
behavior 3 nor the handler ever runs. -/
theorem C2_witness :
    (⟨0, true⟩ : Obj).truthy = true ∧ ([1] ++ 50 :: [3]).Nodup ∧
    List.Forall₂ (fun b e => wEx.behSem b = .func (passBeh e)) [1] [1] ∧
    wEx.behSem 50 = .func (stopBeh 50 7) ∧
    (send wEx (regBs (register_handler clear (.cls 0) 5) (.cls 0) ([1] ++ 50 :: [3]))
        none (some ⟨0, true⟩) ixNat [] = (.ok (some (.v 7)), [] ++ [1] ++ [50]) ∧
     send_async wEx (regBs (register_handler clear (.cls 0) 5) (.cls 0) ([1] ++ 50 :: [3]))
        none (some ⟨0, true⟩) ixNat [] = (.ok (some (.v 7)), [] ++ [1] ++ [50])) :=
  ⟨rfl, by decide, List.Forall₂.cons rfl List.Forall₂.nil, rfl,
   C2_short_circuit wEx none ⟨0, true⟩ 5 [1] 50 [3] [1] 50 7 ixNat [] rfl
     (by decide) (List.Forall₂.cons rfl List.Forall₂.nil) rfl⟩

theorem register_handler_existing (st : Registry) (k : Key) (h hid : Nat)
    (he : lookupKey st.handlers k = some h) : register_handler st k hid = st := by
  unfold register_handler
  rw [he]

/-- C4: registering a second handler for an already-bound request type is a
silent no-op: the registry state is unchanged (no error, no overwrite), the
type still maps to the first handler, and both entry points dispatch to the
first handler, whatever the semantics of the second one. -/
theorem C4_first_registration_wins
    (w : World (List Nat) Nat) (st : Registry) (self_ : Option Obj) (r : Obj)
    (h1 h2 hev hv : Nat) (ix : StM (List Nat) (AVal (List Nat) Nat)) (s0 : List Nat)
    (hfresh : lookupKey st.handlers (.cls r.cls) = none)
    (ht : r.truthy = true)
    (hn : find_notifications w st r.cls = .ok [])
    (hb : find_behaviors w st r.cls = .ok [])
    (hh1 : w.handlerSem h1 = .func (syncHandler hev hv)) :
    register_handler (register_handler st (.cls r.cls) h1) (.cls r.cls) h2 =
      register_handler st (.cls r.cls) h1 ∧
    lookupKey (register_handler st (.cls r.cls) h1).handlers (.cls r.cls) = some h1 ∧
    send w (register_handler (register_handler st (.cls r.cls) h1) (.cls r.cls) h2)
        self_ (some r) ix s0 = (.ok (some (.v hv)), s0 ++ [hev]) ∧
    send_async w (register_handler (register_handler st (.cls r.cls) h1) (.cls r.cls) h2)
        self_ (some r) ix s0 = (.ok (some (.v hv)), s0 ++ [hev]) := by
  have hst1 : register_handler st (.cls r.cls) h1 =
      { st with handlers := dictSet st.handlers (.cls r.cls) h1 } := by
    unfold register_handler
    rw [hfresh]
  have e1 : lookupKey (register_handler st (.cls r.cls) h1).handlers (.cls r.cls) =
      some h1 := by
    rw [hst1]
    exact lookupKey_dictSet_self st.handlers (.cls r.cls) h1
  have e0 : register_handler (register_handler st (.cls r.cls) h1) (.cls r.cls) h2 =
      register_handler st (.cls r.cls) h1 :=
    register_handler_existing _ _ h1 h2 e1
  have hn1 : find_notifications w (register_handler st (.cls r.cls) h1) r.cls = .ok [] := by
    unfold find_notifications at hn ⊢
    rw [hst1]
    exact hn
  have hb1 : find_behaviors w (register_handler st (.cls r.cls) h1) r.cls = .ok [] := by
    unfold find_behaviors at hb ⊢
    rw [hst1]
    exact hb
  have hh : resolveHandler w (register_handler st (.cls r.cls) h1).handlers r.cls =
      some h1 := by
    unfold resolveHandler
    rw [e1]
  have hbs : before_send w (register_handler st (.cls r.cls) h1) self_ (some r) =
      .ok ([.handlerWrap (syncHandler hev hv)], []) := by
    have := before_send_ok w (register_handler st (.cls r.cls) h1) self_ r h1 [] []
      ht hn1 hh hb1
    rw [hh1] at this
    simpa using this
  refine ⟨e0, e1, ?_, ?_⟩
  · rw [e0, send_eval_pipeline w _ self_ (some r) ix s0 _ [] hbs (by simp)]
    rw [start_sync_handler]
    simp
  · rw [e0, send_async_eval_pipeline w _ self_ (some r) ix s0 _ [] hbs (by simp)]
    rw [astart_sync_handler]
    simp

/-- Witness for C4 at a concrete input: handler 3 and then handler 4 are
registered for class 0; the registry is unchanged by the second call, class 0
still maps to handler 3, and dispatch returns handler 3's value 203. -/
theorem C4_witness :
    lookupKey clear.handlers (.cls 0) = none ∧
    wEx.handlerSem 3 = .func (syncHandler 103 203) ∧
    (register_handler (register_handler clear (.cls 0) 3) (.cls 0) 4 =
       register_handler clear (.cls 0) 3 ∧
     lookupKey (register_handler clear (.cls 0) 3).handlers (.cls 0) = some 3 ∧
     send wEx (register_handler (register_handler clear (.cls 0) 3) (.cls 0) 4)
        none (some ⟨0, true⟩) ixNat [] = (.ok (some (.v 203)), [] ++ [103]) ∧
     send_async wEx (register_handler (register_handler clear (.cls 0) 3) (.cls 0) 4)
        none (some ⟨0, true⟩) ixNat [] = (.ok (some (.v 203)), [] ++ [103])) :=
  ⟨rfl, rfl,
   C4_first_registration_wins wEx clear none ⟨0, true⟩ 3 4 103 203 ixNat []
     rfl rfl rfl rfl rfl⟩

/-- C5: when no handler resolves for the request type but at least one
notification matches, both entry points raise no error, run no behavior and
no handler (the pipeline list is empty, so the trace contains only
notification events), invoke every matched notification exactly once in
matched order, and return an absent result (None). -/
theorem C5_notification_only
    (w : World (List Nat) Nat) (st : Registry) (self_ : Option Obj) (r : Obj)
    (nids nevs : List Nat) (ix : StM (List Nat) (AVal (List Nat) Nat)) (s0 : List Nat)
    (ht : r.truthy = true)
    (hh : resolveHandler w st.handlers r.cls = none)
    (hn : find_notifications w st r.cls = .ok nids)
    (hne : nids.isEmpty = false)
    (hns : List.Forall₂ (fun n e => w.notifSem n = .func (syncNotif e)) nids nevs) :
    send w st self_ (some r) ix s0 = (.ok none, s0 ++ nevs) ∧
    send_async w st self_ (some r) ix s0 = (.ok none, s0 ++ nevs) := by
  have hbs : before_send w st self_ (some r) = .ok ([], nids) :=
    before_send_notifOnly w st self_ r nids ht hn hh hne
  constructor
  · rw [send_eval_noPipeline w st self_ (some r) ix s0 nids hbs]
    rw [notifs_sync w (some r) nids nevs hns s0]
  · rw [send_async_eval_noPipeline w st self_ (some r) ix s0 nids hbs]
    rw [notifs_async w (some r) nids nevs hns s0]

/-- Witness for C5 at a concrete input: only notifications 1 and 2 are
registered for class 0 (no handler); dispatch returns None without error and
the trace records exactly the two notification events in matched order. -/
theorem C5_witness :
    (⟨0, true⟩ : Obj).truthy = true ∧
    resolveHandler wEx (regNs clear (.cls 0) [1, 2]).handlers 0 = none ∧
    find_notifications wEx (regNs clear (.cls 0) [1, 2]) 0 = .ok [1, 2] ∧
    List.Forall₂ (fun n e => wEx.notifSem n = .func (syncNotif e)) [1, 2] [301, 302] ∧
    (send wEx (regNs clear (.cls 0) [1, 2]) none (some ⟨0, true⟩) ixNat [] =
       (.ok none, [] ++ [301, 302]) ∧
     send_async wEx (regNs clear (.cls 0) [1, 2]) none (some ⟨0, true⟩) ixNat [] =
       (.ok none, [] ++ [301, 302])) :=
  ⟨rfl, rfl, rfl,
   List.Forall₂.cons rfl (List.Forall₂.cons rfl List.Forall₂.nil),
   C5_notification_only wEx (regNs clear (.cls 0) [1, 2]) none ⟨0, true⟩
     [1, 2] [301, 302] ixNat [] rfl rfl rfl rfl
     (List.Forall₂.cons rfl (List.Forall₂.cons rfl List.Forall₂.nil))⟩

/-- C6: when no handler resolves for the request type (neither under the
exact class key nor under the class name) and no notification matches, both
entry points fail with HandlerNotFoundError, whatever else the registry
contains. -/
theorem C6_handler_not_found
    (w : World (List Nat) Nat) (st : Registry) (self_ : Option Obj) (r : Obj)
    (ix : StM (List Nat) (AVal (List Nat) Nat)) (s0 : List Nat)
    (ht : r.truthy = true)
    (hh : resolveHandler w st.handlers r.cls = none)
    (hn : find_notifications w st r.cls = .ok []) :
    send w st self_ (some r) ix s0 = (.error .handlerNotFound, s0) ∧
    send_async w st self_ (some r) ix s0 = (.error .handlerNotFound, s0) := by
  have hbs : before_send w st self_ (some r) = .error .handlerNotFound :=
    before_send_noHandler w st self_ r ht hn hh
  exact ⟨send_eval_err w st self_ (some r) ix s0 _ hbs,
         send_async_eval_err w st self_ (some r) ix s0 _ hbs⟩

/-- Witness for C6 at a concrete input: a registry holding only a behavior
for class 0 and a handler for class 2; dispatching a request of class 0
fails with HandlerNotFoundError on both entry points. -/
theorem C6_witness :
    (⟨0, true⟩ : Obj).truthy = true ∧
    resolveHandler wEx (regBs (register_handler clear (.cls 2) 5) (.cls 0) [1]).handlers 0 =
      none ∧
    find_notifications wEx (regBs (register_handler clear (.cls 2) 5) (.cls 0) [1]) 0 =
      .ok [] ∧
    (send wEx (regBs (register_handler clear (.cls 2) 5) (.cls 0) [1])
        none (some ⟨0, true⟩) ixNat [] = (.error .handlerNotFound, []) ∧
     send_async wEx (regBs (register_handler clear (.cls 2) 5) (.cls 0) [1])
        none (some ⟨0, true⟩) ixNat [] = (.error .handlerNotFound, [])) :=
  ⟨rfl, rfl, rfl,
   C6_handler_not_found wEx (regBs (register_handler clear (.cls 2) 5) (.cls 0) [1])
     none ⟨0, true⟩ ixNat [] rfl rfl rfl⟩

/-- C3 counterexample: class 1 is a proper descendant of class 0
(`wEx.isSub 1 0 = true`), and a handler is registered against the ancestor
class 0; yet dispatching a request of class 1 fails with
HandlerNotFoundError on both entry points, refuting the claim that a handler
registered against an ancestor type matches a request of the descendant
type. -/
theorem C3_counterexample :
    wEx.isSub 1 0 = true ∧
    lookupKey (register_handler clear (.cls 0) 7).handlers (.cls 0) = some 7 ∧
    send wEx (register_handler clear (.cls 0) 7) none (some ⟨1, true⟩) ixNat [] =
      (.error .handlerNotFound, []) ∧
    send_async wEx (register_handler clear (.cls 0) 7) none (some ⟨1, true⟩) ixNat [] =
      (.error .handlerNotFound, []) :=
  ⟨rfl, rfl, rfl, rfl⟩

/-- C3 amended: a behavior or notification registered against an ancestor
type K matches a dispatched request of descendant type S, but handler
resolution does not promote over the hierarchy: it consults only the exact
class key and the class-name key, so a handler registered against a proper
ancestor does not match, and resolution never yields more than one handler
for a given concrete request type. -/
theorem C3_amended :
    (∀ (w : World (List Nat) Nat) (S K : Nat) (ids nids : List Nat)
       (hs : List (Key × Nat)),
       w.isSub S K = true →
       find_behaviors w ⟨hs, [(.cls K, ids)], [(.cls K, nids)]⟩ S = .ok ids ∧
       find_notifications w ⟨hs, [(.cls K, ids)], [(.cls K, nids)]⟩ S = .ok nids) ∧
    (∀ (w : World (List Nat) Nat) (S K hid : Nat), S ≠ K →
       resolveHandler w [(.cls K, hid)] S = none) ∧
    (∀ (w : World (List Nat) Nat) (tbl : List (Key × Nat)) (rcls h h1 : Nat),
       resolveHandler w tbl rcls = some h → resolveHandler w tbl rcls = some h1 →
       h = h1) := by
  refine ⟨?_, ?_, ?_⟩
  · intro w S K ids nids hs hsub
    constructor
    · unfold find_behaviors
      simp [collectEntries, keyMatch, hsub]
    · unfold find_notifications
      simp [collectEntries, keyMatch, hsub]
  · intro w S K hid hne
    unfold resolveHandler
    have hKS : K ≠ S := Ne.symm hne
    simp [lookupKey, hKS]
  · intro w tbl rcls h h1 e e1
    rw [e] at e1
    injection e1

/-- Witness for the amended C3: with class 1 a descendant of class 0, a
behavior and a notification registered against class 0 match a request of
class 1, while a handler registered against class 0 does not resolve for
class 1. -/
theorem C3_amended_witness :
    wEx.isSub 1 0 = true ∧
    (find_behaviors wEx ⟨[], [(.cls 0, [4])], [(.cls 0, [6])]⟩ 1 = .ok [4] ∧
     find_notifications wEx ⟨[], [(.cls 0, [4])], [(.cls 0, [6])]⟩ 1 = .ok [6]) ∧
    resolveHandler wEx [(.cls 0, 7)] 1 = none :=
  ⟨rfl, C3_amended.1 wEx 1 0 [4] [6] [] rfl,
   C3_amended.2.1 wEx 1 0 7 (by decide)⟩

/-! C7: matched order of behaviors and notifications. -/

theorem regGroupsB_behaviors (st : Registry) (groups : List (Key × List Nat)) :
    (regGroupsB st groups).behaviors =
      groups.foldl (fun t g => g.2.foldl (fun t1 i => addEntry t1 g.1 i) t)
        st.behaviors := by
  induction groups generalizing st with
  | nil => rfl
  | cons g gs ih =>
      simp only [regGroupsB, List.foldl_cons]
      have := ih (regBs st g.1 g.2)
      simp only [regGroupsB] at this
      rw [this, regBs_behaviors]

theorem regGroupsN_notifications (st : Registry) (groups : List (Key × List Nat)) :
    (regGroupsN st groups).notifications =
      groups.foldl (fun t g => g.2.foldl (fun t1 i => addEntry t1 g.1 i) t)
        st.notifications := by
  induction groups generalizing st with
  | nil => rfl
  | cons g gs ih =>
      simp only [regGroupsN, List.foldl_cons]
      have := ih (regNs st g.1 g.2)
      simp only [regGroupsN] at this
      rw [this, regNs_notifications]

/-- C7: when groups of behaviors (and likewise notifications) are registered
under pairwise-distinct class-or-wildcard keys, each group non-empty and
duplicate-free, the matched list of any dispatch is exactly the
concatenation, in key first-registration order, of the groups whose key
matches, each group in its own registration order (`specMatchedOrder`, the
spec-side description); the wildcard key matches every request class, in
particular one whose own entries were registered after the wildcard, and no
reordering by specificity happens. -/
theorem C7_matched_order (w : World (List Nat) Nat)
    (groups : List (Key × List Nat)) (rcls : Nat)
    (hkeys : (groups.map Prod.fst).Nodup)
    (hgood : ∀ g ∈ groups, g.2 ≠ [] ∧ g.2.Nodup ∧ Key.isStr g.1 = false) :
    find_behaviors w (regGroupsB clear groups) rcls =
      .ok (specMatchedOrder w.isSub rcls groups) ∧
    find_notifications w (regGroupsN clear groups) rcls =
      .ok (specMatchedOrder w.isSub rcls groups) ∧
    specKeyMatches w.isSub rcls Key.anyK = true := by
  have htbl : groups.foldl (fun t g => g.2.foldl (fun t1 i => addEntry t1 g.1 i) t)
      ([] : List (Key × List Nat)) = groups := by
    have := addGroups_fresh groups []
      (fun g _hg => rfl) hkeys (fun g hg => ⟨(hgood g hg).1, (hgood g hg).2.1⟩)
    simpa using this
  have hclean : ∀ p ∈ groups, Key.isStr p.1 = false :=
    fun p hp => (hgood p hp).2.2
  refine ⟨?_, ?_, rfl⟩
  · unfold find_behaviors
    rw [regGroupsB_behaviors]
    simp only [clear]
    rw [htbl]
    exact collectEntries_clean w.isSub rcls groups [] hclean
  · unfold find_notifications
    rw [regGroupsN_notifications]
    simp only [clear]
    rw [htbl]
    exact collectEntries_clean w.isSub rcls groups [] hclean

/-- Witness for C7 at a concrete input: behaviors (and notifications) 1, 2
and 3 registered under class 0, the wildcard, and class 1, in that order;
for a request of class 1 (a descendant of class 0) all three keys match and
the matched list is [1, 2, 3]: ancestor entries first (their key was
registered first), then the wildcard entries — which match class 1 even
though class 1's own entries were registered after the wildcard — then the
exact-class entries, with no specificity reordering. -/
theorem C7_witness :
    ([(Key.cls 0, [1]), (Key.anyK, [2]), (Key.cls 1, [3])].map Prod.fst).Nodup ∧
    (∀ g ∈ [(Key.cls 0, [1]), (Key.anyK, [2]), (Key.cls 1, [3])],
       g.2 ≠ [] ∧ g.2.Nodup ∧ Key.isStr g.1 = false) ∧
    specMatchedOrder wEx.isSub 1
      [(Key.cls 0, [1]), (Key.anyK, [2]), (Key.cls 1, [3])] = [1, 2, 3] ∧
    (find_behaviors wEx
        (regGroupsB clear [(Key.cls 0, [1]), (Key.anyK, [2]), (Key.cls 1, [3])]) 1 =
      .ok (specMatchedOrder wEx.isSub 1
        [(Key.cls 0, [1]), (Key.anyK, [2]), (Key.cls 1, [3])]) ∧
     find_notifications wEx
        (regGroupsN clear [(Key.cls 0, [1]), (Key.anyK, [2]), (Key.cls 1, [3])]) 1 =
      .ok (specMatchedOrder wEx.isSub 1
        [(Key.cls 0, [1]), (Key.anyK, [2]), (Key.cls 1, [3])]) ∧
     specKeyMatches wEx.isSub 1 Key.anyK = true) :=
  ⟨by decide, by decide, by decide,
   C7_matched_order wEx [(Key.cls 0, [1]), (Key.anyK, [2]), (Key.cls 1, [3])] 1
     (by decide) (by decide)⟩

/-- C8 counterexample: calling `send`/`send_async` on a mediator instance
(here an object of class 9) with the request argument absent (None) does not
raise RequestNoneError: the `request = request or self` merge substitutes
the mediator itself as the request, and with an empty registry dispatch
fails with HandlerNotFoundError instead. -/
theorem C8_counterexample :
    send wEx clear (some ⟨9, true⟩) none ixNat [] = (.error .handlerNotFound, []) ∧
    send_async wEx clear (some ⟨9, true⟩) none ixNat [] = (.error .handlerNotFound, []) ∧
    Err.handlerNotFound ≠ Err.requestNone :=
  ⟨rfl, rfl, by decide⟩

/-- C8 amended: RequestNoneError is raised exactly when the effective request
— the request argument if truthy, otherwise the receiver — is absent, as in
a class-style call with request None; the check then fires before any
matching or lookup, for every registry state, and the state is untouched.
(An instance-style call with request None instead dispatches the mediator
object itself as the request.) -/
theorem C8_request_none (w : World (List Nat) Nat) (st : Registry)
    (request : Option Obj) (ix : StM (List Nat) (AVal (List Nat) Nat)) (s0 : List Nat)
    (hfalse : truthyOpt request = false) :
    send w st none request ix s0 = (.error .requestNone, s0) ∧
    send_async w st none request ix s0 = (.error .requestNone, s0) := by
  have hbs : before_send w st none request = .error .requestNone := by
    unfold before_send
    simp [hfalse]
  exact ⟨send_eval_err w st none request ix s0 _ hbs,
         send_async_eval_err w st none request ix s0 _ hbs⟩

/-- Witness for the amended C8: a class-style call with no request and an
arbitrary poisoned registry still fails with RequestNoneError, untouched
state. -/
theorem C8_witness :
    truthyOpt none = false ∧
    (send wEx ⟨[(.strK "bad", 0)], [(.strK "bad", [0])], [(.strK "bad", [0])]⟩
        none none ixNat [] = (.error .requestNone, []) ∧
     send_async wEx ⟨[(.strK "bad", 0)], [(.strK "bad", [0])], [(.strK "bad", [0])]⟩
        none none ixNat [] = (.error .requestNone, [])) :=
  ⟨rfl, C8_request_none wEx
    ⟨[(.strK "bad", 0)], [(.strK "bad", [0])], [(.strK "bad", [0])]⟩
    none ixNat [] rfl⟩

/-! C9: agreement of the two entry points. -/

/-- The blocking and suspendable executors agree on a pipeline whose
behaviors are synchronous and either short-circuit or return their
continuation's result unchanged, with a synchronous terminal handler. -/
theorem regd_shape_mixed (w : World (List Nat) Nat) (bids evs : List Nat)
    (h : List.Forall₂ (fun b ev => w.behSem b = .func (passBeh ev) ∨
      ∃ bv, w.behSem b = .func (stopBeh ev bv)) bids evs) :
    List.Forall₂ (fun e ev => getBehFunc w e = passBeh ev ∨
      ∃ bv, getBehFunc w e = stopBeh ev bv) (bids.map BehEntry.regd) evs := by
  induction h with
  | nil => exact List.Forall₂.nil
  | @cons b ev l1 l2 h1 _h2 ih =>
      refine List.Forall₂.cons ?_ ih
      rcases h1 with hp | ⟨bv, hs⟩
      · exact Or.inl (by simp [getBehFunc, hp, get_function])
      · exact Or.inr ⟨bv, by simp [getBehFunc, hs, get_function]⟩

theorem pipe_equiv (w : World (List Nat) Nat)
    (ix : StM (List Nat) (AVal (List Nat) Nat)) (r : Option Obj)
    (l : List (BehEntry (List Nat) Nat)) (es : List Nat)
    (h : List.Forall₂ (fun e ev => getBehFunc w e = passBeh ev ∨
      ∃ bv, getBehFunc w e = stopBeh ev bv) l es)
    (hev hv : Nat) (s : List Nat) :
    start_func w ix r (l ++ [.handlerWrap (syncHandler hev hv)]) s =
      return_await (astart w ix r (l ++ [.handlerWrap (syncHandler hev hv)])) s := by
  induction h generalizing s with
  | nil =>
      rw [List.nil_append, start_sync_handler, astart_sync_handler]
  | @cons a ev l1 es2 h1 _h2 ih =>
      rcases h1 with hp | ⟨bv, hs⟩
      · have hsingle : List.Forall₂ (fun e ev => getBehFunc w e = passBeh ev) [a] [ev] :=
          List.Forall₂.cons hp List.Forall₂.nil
        have hL : (a :: l1) ++ [BehEntry.handlerWrap (syncHandler hev hv)] =
            [a] ++ (l1 ++ [BehEntry.handlerWrap (syncHandler hev hv)]) := by simp
        rw [hL]
        rw [start_pass_front w ix r [a] [ev] hsingle _ s]
        rw [astart_pass_front w ix r [a] [ev] hsingle _ s]
        exact ih (s ++ [ev])
      · have hL : (a :: l1) ++ [BehEntry.handlerWrap (syncHandler hev hv)] =
            a :: (l1 ++ [BehEntry.handlerWrap (syncHandler hev hv)]) := by simp
        rw [hL]
        rw [start_stop w ix r a ev bv hs _ s, astart_stop w ix r a ev bv hs _ s]

/-- C9 amended: `send_async` agrees with `send` — same result value, same
invocations in the same order (equal final traces) — whenever the resolved
handler and every matched notification are plain synchronous functions and
every matched behavior is a plain synchronous function that either
short-circuits without invoking its continuation or returns its
continuation's result unchanged.  (Without the last restriction the
agreement fails, see the counterexample: a synchronous behavior that invokes
its continuation but returns a non-awaitable of its own silently drops the
rest of the pipeline under `send_async`.) -/
theorem C9_sync_agreement (w : World (List Nat) Nat) (st : Registry)
    (self_ : Option Obj) (r : Obj) (hid hev hv : Nat)
    (bids evs nids nevs : List Nat)
    (ix : StM (List Nat) (AVal (List Nat) Nat)) (s0 : List Nat)
    (ht : r.truthy = true)
    (hh : resolveHandler w st.handlers r.cls = some hid)
    (hhs : w.handlerSem hid = .func (syncHandler hev hv))
    (hb : find_behaviors w st r.cls = .ok bids)
    (hbe : List.Forall₂ (fun b ev => w.behSem b = .func (passBeh ev) ∨
      ∃ bv, w.behSem b = .func (stopBeh ev bv)) bids evs)
    (hn : find_notifications w st r.cls = .ok nids)
    (hns : List.Forall₂ (fun n e => w.notifSem n = .func (syncNotif e)) nids nevs) :
    send w st self_ (some r) ix s0 = send_async w st self_ (some r) ix s0 := by
  have hbs : before_send w st self_ (some r) =
      .ok (bids.map .regd ++ [.handlerWrap (syncHandler hev hv)], nids) := by
    have := before_send_ok w st self_ r hid nids bids ht hn hh hb
    rw [hhs] at this
    exact this
  have hne : (bids.map BehEntry.regd ++
      [BehEntry.handlerWrap (syncHandler hev hv)]).isEmpty = false := by simp
  have hshape : List.Forall₂ (fun e ev => getBehFunc w e = passBeh ev ∨
      ∃ bv, getBehFunc w e = stopBeh ev bv) (bids.map BehEntry.regd) evs :=
    regd_shape_mixed w bids evs hbe
  have hpipe : start_func w ix (some r)
      (bids.map .regd ++ [.handlerWrap (syncHandler hev hv)]) s0 =
      return_await (astart w ix (some r)
        (bids.map .regd ++ [.handlerWrap (syncHandler hev hv)])) s0 :=
    pipe_equiv w ix (some r) (bids.map .regd) evs hshape hev hv s0
  rw [send_eval_pipeline w st self_ (some r) ix s0 _ nids hbs hne]
  rw [send_async_eval_pipeline w st self_ (some r) ix s0 _ nids hbs hne]
  rw [hpipe]
  rw [notifs_sync w (some r) nids nevs hns _]
  rw [notifs_async w (some r) nids nevs hns _]

/-- Witness for the amended C9: handler 5, a pass-through behavior 1 and a
short-circuit-free pipeline with one synchronous notification 2 for class 0:
the two entry points produce identical results and traces. -/
theorem C9_witness :
    (⟨0, true⟩ : Obj).truthy = true ∧
    resolveHandler wEx ([(Key.cls 0, 5)]) 0 = some 5 ∧
    wEx.handlerSem 5 = .func (syncHandler 105 205) ∧
    find_behaviors wEx ⟨[(.cls 0, 5)], [(.cls 0, [1])], [(.cls 0, [2])]⟩ 0 = .ok [1] ∧
    find_notifications wEx ⟨[(.cls 0, 5)], [(.cls 0, [1])], [(.cls 0, [2])]⟩ 0 = .ok [2] ∧
    send wEx ⟨[(.cls 0, 5)], [(.cls 0, [1])], [(.cls 0, [2])]⟩ none (some ⟨0, true⟩) ixNat [] =
      send_async wEx ⟨[(.cls 0, 5)], [(.cls 0, [1])], [(.cls 0, [2])]⟩ none (some ⟨0, true⟩) ixNat [] :=
  ⟨rfl, rfl, rfl, rfl, rfl,
   C9_sync_agreement wEx ⟨[(.cls 0, 5)], [(.cls 0, [1])], [(.cls 0, [2])]⟩
     none ⟨0, true⟩ 5 105 205 [1] [1] [2] [302] ixNat [] rfl rfl rfl rfl
     (List.Forall₂.cons (Or.inl rfl) List.Forall₂.nil) rfl
     (List.Forall₂.cons rfl List.Forall₂.nil)⟩

/-- A world whose behavior 0 is a plain synchronous function that invokes
its continuation once (for its effects) and then returns the plain value 7 —
it returns no awaitable; the handler is synchronous. -/
def wCall : World (List Nat) Nat where
  isSub := fun _ _ => false
  clsName := fun _ => "c"
  handlerSem := fun _ => .func (syncHandler 99 42)
  behSem := fun _ => .func (fun _r next => fun s =>
    let q := next () (s ++ [10])
    (.v 7, q.2))
  notifSem := fun _ => .func (syncNotif 0)

/-- The registry for the C9 counterexample: handler 1 and behavior 0 for
class 0. -/
def stCall : Registry := register_behavior (register_handler clear (.cls 0) 1) (.cls 0) 0

/-- C9 counterexample: with every registered callable a plain synchronous
function returning no awaitable, `send` runs behavior 0 and then the handler
(trace [10, 99]) while `send_async` runs only behavior 0 (trace [10]): the
continuation invoked inside the synchronous behavior only creates a
coroutine under `send_async`, and since the behavior returns its own plain
value, that coroutine is never awaited and the handler never runs — the two
entry points do not perform the same invocations, refuting the claimed
equivalence, although both return the value 7. -/
theorem C9_counterexample :
    send wCall stCall none (some ⟨0, true⟩) ixNat [] = (.ok (some (.v 7)), [10, 99]) ∧
    (send_async wCall stCall none (some ⟨0, true⟩) ixNat []).2 = [10] ∧
    (send wCall stCall none (some ⟨0, true⟩) ixNat []).2 ≠
      (send_async wCall stCall none (some ⟨0, true⟩) ixNat []).2 :=
  ⟨rfl, rfl, by decide⟩

/-! C10: non-class keys poison matching. -/

theorem before_send_notifErr (w : World (List Nat) Nat) (st : Registry)
    (self_ : Option Obj) (r : Obj) (e : Err)
    (ht : r.truthy = true)
    (hn : find_notifications w st r.cls = .error e) :
    before_send w st self_ (some r) = .error e := by
  unfold before_send
  simp only [truthyOpt, ht, if_true, hn]

theorem before_send_behErr (w : World (List Nat) Nat) (st : Registry)
    (self_ : Option Obj) (r : Obj) (nids : List Nat) (hid : Nat) (e : Err)
    (ht : r.truthy = true)
    (hn : find_notifications w st r.cls = .ok nids)
    (hh : resolveHandler w st.handlers r.cls = some hid)
    (hb : find_behaviors w st r.cls = .error e) :
    before_send w st self_ (some r) = .error e := by
  unfold before_send
  simp only [truthyOpt, ht, if_true, hn, hh, hb]

/-- C10 counterexample: a behavior is registered under a non-class (string)
key, yet a dispatch that takes the notification-only path (no handler, one
matching notification for class 5) completes without any TypeError and
returns None: behavior matching is never reached, refuting the claim that
every subsequent dispatch of every request raises TypeError. -/
theorem C10_counterexample :
    (Key.strK "X", [0]) ∈
      (register_notification (register_behavior clear (.strK "X") 0) (.cls 5) 1).behaviors ∧
    Key.isStr (Key.strK "X") = true ∧
    send wEx (register_notification (register_behavior clear (.strK "X") 0) (.cls 5) 1)
      none (some ⟨5, true⟩) ixNat [] = (.ok none, [301]) ∧
    send_async wEx (register_notification (register_behavior clear (.strK "X") 0) (.cls 5) 1)
      none (some ⟨5, true⟩) ixNat [] = (.ok none, [301]) ∧
    ((.ok none : Except Err (Option (AVal (List Nat) Nat))) ≠ .error .typeError) :=
  ⟨by decide, rfl, rfl, rfl, by simp⟩

/-- C10 amended: a non-class key makes the unguarded `issubclass` test raise
TypeError, but only on the matching passes that actually run: if any
notification key is a non-class, every dispatch of every (truthy) request
fails with TypeError, whatever the request's class; if only a behavior key
is a non-class, exactly the dispatches that resolve a handler fail with
TypeError (the notification-only path never runs behavior matching, see the
counterexample); matching is total only when all behavior and notification
keys are classes or the wildcard. -/
theorem C10_nonclass_key_poisons :
    (∀ (w : World (List Nat) Nat) (st : Registry) (self_ : Option Obj) (r : Obj)
       (ix : StM (List Nat) (AVal (List Nat) Nat)) (s0 : List Nat)
       (p : Key × List Nat),
       p ∈ st.notifications → Key.isStr p.1 = true → r.truthy = true →
       send w st self_ (some r) ix s0 = (.error .typeError, s0) ∧
       send_async w st self_ (some r) ix s0 = (.error .typeError, s0)) ∧
    (∀ (w : World (List Nat) Nat) (st : Registry) (self_ : Option Obj) (r : Obj)
       (ix : StM (List Nat) (AVal (List Nat) Nat)) (s0 : List Nat)
       (p : Key × List Nat) (nids : List Nat) (hid : Nat),
       p ∈ st.behaviors → Key.isStr p.1 = true → r.truthy = true →
       find_notifications w st r.cls = .ok nids →
       resolveHandler w st.handlers r.cls = some hid →
       send w st self_ (some r) ix s0 = (.error .typeError, s0) ∧
       send_async w st self_ (some r) ix s0 = (.error .typeError, s0)) := by
  constructor
  · intro w st self_ r ix s0 p hp hstr ht
    have hn : find_notifications w st r.cls = .error .typeError :=
      collectEntries_poisoned w.isSub r.cls st.notifications [] ⟨p, hp, hstr⟩
    have hbs := before_send_notifErr w st self_ r .typeError ht hn
    exact ⟨send_eval_err w st self_ (some r) ix s0 _ hbs,
           send_async_eval_err w st self_ (some r) ix s0 _ hbs⟩
  · intro w st self_ r ix s0 p nids hid hp hstr ht hn hh
    have hb : find_behaviors w st r.cls = .error .typeError :=
      collectEntries_poisoned w.isSub r.cls st.behaviors [] ⟨p, hp, hstr⟩
    have hbs := before_send_behErr w st self_ r nids hid .typeError ht hn hh hb
    exact ⟨send_eval_err w st self_ (some r) ix s0 _ hbs,
           send_async_eval_err w st self_ (some r) ix s0 _ hbs⟩

/-- Witness for the amended C10: a string-keyed notification makes an
unrelated dispatch (request class 0) fail with TypeError; a string-keyed
behavior together with a resolved handler for class 0 likewise fails with
TypeError. -/
theorem C10_witness :
    ((Key.strK "Y", [2]) ∈ (register_notification clear (.strK "Y") 2).notifications ∧
     send wEx (register_notification clear (.strK "Y") 2) none (some ⟨0, true⟩) ixNat [] =
       (.error .typeError, []) ∧
     send_async wEx (register_notification clear (.strK "Y") 2) none (some ⟨0, true⟩) ixNat [] =
       (.error .typeError, [])) ∧
    ((Key.strK "Z", [3]) ∈
       (register_behavior (register_handler clear (.cls 0) 1) (.strK "Z") 3).behaviors ∧
     send wEx (register_behavior (register_handler clear (.cls 0) 1) (.strK "Z") 3)
        none (some ⟨0, true⟩) ixNat [] = (.error .typeError, []) ∧
     send_async wEx (register_behavior (register_handler clear (.cls 0) 1) (.strK "Z") 3)
        none (some ⟨0, true⟩) ixNat [] = (.error .typeError, [])) :=
  ⟨⟨by decide,
    C10_nonclass_key_poisons.1 wEx (register_notification clear (.strK "Y") 2)
      none ⟨0, true⟩ ixNat [] (Key.strK "Y", [2]) (by decide) rfl rfl⟩,
   ⟨by decide,
    C10_nonclass_key_poisons.2 wEx
      (register_behavior (register_handler clear (.cls 0) 1) (.strK "Z") 3)
      none ⟨0, true⟩ ixNat [] (Key.strK "Z", [3]) [] 1 (by decide) rfl rfl rfl rfl⟩⟩

end MediatrPy
